import Mathlib

/-!
Verification development for the speedometer repository (speedometer.py).

The program is Python 3 (it reads sys.stdin.buffer and uses
BufferedReader.peek), so the / operator on integers denotes true division.
Python floats and their arithmetic are modelled by exact rationals (ℚ);
Python int byte counters by ℤ.  Python's int() conversion truncates toward
zero; fallible code (assert statements, TypeError on ordering None against
a number, ZeroDivisionError) is modelled with Except String.
-/

/-- Python int() applied to a float or rational: truncation toward zero.
A rational is num/den in lowest terms with den > 0, and Int.tdiv rounds
toward zero, so this is exactly Python's int(). -/
def pyInt (q : ℚ) : ℤ := q.num.tdiv (q.den : ℤ)

deriving instance DecidableEq for Except

/-- Python xs[-n:] for n ≥ 1: the last n elements (all of xs when it is shorter).
All slices in the program use n = 300 or n = maxlog+1 with maxlog ≥ 0. -/
def pyTail (n : ℕ) (xs : List α) : List α := xs.drop (xs.length - n)

/-- A reading of the sample log: (timestamp in seconds, byte count). -/
abbrev Reading := ℚ × ℤ

/-- State of class Speedometer: the rolling log, the first-ever reading
(self.start, None before the first update) and the maxlog bound. -/
structure Speedometer where
  log : List Reading
  start : Option Reading
  maxlog : ℤ

/-- Speedometer.__init__(maxlog): empty log, no start reading. -/
def Speedometer.init (maxlog : ℤ) : Speedometer := ⟨[], none, maxlog⟩

/-- Speedometer.update(bytes) at time t: append the reading, record the first
reading as start, trim the log to the last maxlog+1 entries
(self.log = self.log[-(self.maxlog+1):], for the program's maxlog ≥ 0). -/
def Speedometer.update (sp : Speedometer) (t : ℚ) (bytes : ℤ) : Speedometer :=
  let reading : Reading := (t, bytes)
  { log := pyTail (sp.maxlog + 1).toNat (sp.log ++ [reading])
    start := match sp.start with
      | none => some reading
      | some s => some s
    maxlog := sp.maxlog }

/-- The reading self.log[-1-skip] read by Speedometer.delta (meaningful under
delta's guard skip ≤ len(log)-1, which makes the index in range). -/
def Speedometer.currentReading (sp : Speedometer) (skip : ℤ) : Reading :=
  sp.log.getD (sp.log.length - 1 - skip.toNat) (0, 0)

/-- The target resolution in Speedometer.delta: self.start when readings == 0,
self.log[-(readings+skip+1)] when that entry exists, otherwise None. -/
def Speedometer.targetReading (sp : Speedometer) (readings skip : ℤ) :
    Option Reading :=
  if readings = 0 then sp.start
  else if (sp.log.length : ℤ) > readings + skip then
    some (sp.log.getD (sp.log.length - (readings + skip + 1).toNat) (0, 0))
  else none

/-- Speedometer.delta(readings, skip).  The four assert statements raise
AssertionError; otherwise None (modelled Option.none) is returned when there
is not enough data or target and current coincide, and otherwise the pair
(time_passed, byte_increase). -/
def Speedometer.delta (sp : Speedometer) (readings skip : ℤ) :
    Except String (Option (ℚ × ℤ)) :=
  if ¬ 0 ≤ readings then .error "AssertionError"
  else if ¬ readings ≤ sp.maxlog then
    .error "AssertionError: Log is not long enough to satisfy request"
  else if ¬ 0 ≤ skip then .error "AssertionError"
  else if 0 < skip ∧ ¬ 0 < readings then
    .error "AssertionError: Can't skip when reading all"
  else if (sp.log.length : ℤ) - 1 < skip then .ok none
  else
    let current := sp.currentReading skip
    match sp.targetReading readings skip with
    | none => .ok none
    | some target =>
      if target = current then .ok none
      else .ok (some (current.1 - target.1, current.2 - target.2))

/-- delta_to_speed(delta): 0 for non-positive or sub-millisecond elapsed time,
otherwise int(byte_increase*1000)/int(time_passed*1000) under Python 3 true
division (an exact rational). -/
def delta_to_speed (delta : ℚ × ℚ) : ℚ :=
  if delta.1 ≤ 0 then 0
  else if pyInt (delta.1 * 1000) = 0 then 0
  else (pyInt (delta.2 * 1000) : ℚ) / (pyInt (delta.1 * 1000) : ℚ)

/-- Speedometer.speed(readings, skip): delta_to_speed of delta when a delta is
available, None otherwise. -/
def Speedometer.speed (sp : Speedometer) (readings skip : ℤ) :
    Except String (Option ℚ) :=
  match sp.delta readings skip with
  | .error e => .error e
  | .ok none => .ok none
  | .ok (some d) => .ok (some (delta_to_speed ((d.1 : ℚ), (d.2 : ℚ))))

/-- The loop of curve(spd): iterate over the weights val = [6,5,4,3,2,1] paired
with the skip index i, accumulating wtot and ws; stop at the first None from
delta(1, i).  Dividing float(b)*v by an elapsed time of exactly 0 raises
ZeroDivisionError in Python. -/
def curveAux (spd : Speedometer) : List (ℤ × ℤ) → ℤ → ℚ →
    Except String (ℤ × ℚ)
  | [], wtot, ws => .ok (wtot, ws)
  | (v, i) :: rest, wtot, ws =>
    match spd.delta 1 i with
    | .error e => .error e
    | .ok none => .ok (wtot, ws)
    | .ok (some (t, b)) =>
      if t = 0 then .error "ZeroDivisionError"
      else curveAux spd rest (wtot + v) (ws + (b : ℚ) * (v : ℚ) / t)

/-- curve(spd): the weighted smoothing of the last six one-interval deltas,
finished by delta_to_speed((wtot, ws)). -/
def curve (spd : Speedometer) : Except String ℚ :=
  match curveAux spd [(6, 0), (5, 1), (4, 2), (3, 3), (2, 4), (1, 5)] 0 0 with
  | .error e => .error e
  | .ok (wtot, ws) => .ok (delta_to_speed ((wtot : ℚ), ws))

/-- State of class FileProgress: expected size, the wrapped Speedometer and
the current size (None until the first update). -/
structure FileProgress where
  expected_size : ℤ
  speedometer : Speedometer
  current_size : Option ℤ

/-- FileProgress.__init__(maxlog, expected_size). -/
def FileProgress.init (maxlog expected_size : ℤ) : FileProgress :=
  ⟨expected_size, Speedometer.init maxlog, none⟩

/-- FileProgress.update(current_size) at time t. -/
def FileProgress.update (fp : FileProgress) (t : ℚ) (current_size : ℤ) :
    FileProgress :=
  { fp with
    current_size := some current_size
    speedometer := fp.speedometer.update t current_size }

/-- FileProgress.completion_estimate(): delta over samples_for_estimate = 4
readings; None without enough readings or when stalled (bytes ≤ 0); 0 when
remaining ≤ 0; otherwise float(remaining)*seconds/bytes.  Subtracting a
current_size of None from expected_size would raise TypeError. -/
def FileProgress.completion_estimate (fp : FileProgress) :
    Except String (Option ℚ) :=
  match fp.speedometer.delta 4 0 with
  | .error e => .error e
  | .ok none => .ok none
  | .ok (some (seconds, bytes)) =>
    if bytes ≤ 0 then .ok none
    else
      match fp.current_size with
      | none => .error "TypeError"
      | some c =>
        let remaining := fp.expected_size - c
        if remaining ≤ 0 then .ok (some 0)
        else .ok (some ((remaining : ℚ) * seconds / (bytes : ℚ)))

/-- State of class SpeedGraph relevant to the sampling engine: the raw speed
history self.log (entries are speeds or None) and the scaled history self.bar
(each entry a one-element list of the scaled value). -/
structure SpeedGraph where
  log : List (Option ℚ)
  bar : List (List ℚ)

/-- SpeedGraph.append_log(s), parametrized by the scale function speed_scale
(whose logarithmic branch computes a real log2; the trimming behaviour under
scrutiny is independent of it): take the last 300 entries of each history and
append the new entry. -/
def SpeedGraph.append_log (scale : Option ℚ → ℚ) (g : SpeedGraph)
    (s : Option ℚ) : SpeedGraph :=
  { bar := pyTail 300 g.bar ++ [[scale s]]
    log := pyTail 300 g.log ++ [s] }

/-- The right-neighbour test l[i+1] > li of the candidate scan in
SpeedGraph.local_maximums, including the Python 3 TypeError raised when a
None is ordered against a number; on success the candidate (li, -i) is
produced. -/
def candRight (l : List (Option ℚ)) (i : ℕ) (x : ℚ) :
    Except String (Option (ℚ × ℤ)) :=
  match l.getD (i + 1) none with
  | none => .error "TypeError"
  | some z => if z > x then .ok none else .ok (some (x, -(i : ℤ)))

/-- One step of the candidate scan in SpeedGraph.local_maximums, at index i:
skip when l[i] is 0 or None or fails the left-neighbour test, then run the
right-neighbour test (candRight). -/
def candAt (l : List (Option ℚ)) (i : ℕ) : Except String (Option (ℚ × ℤ)) :=
  match l.getD i none with
  | none =>
    if i ≠ 0 then
      match l.getD (i - 1) none with
      | some _ => .error "TypeError"
      | none => .ok none
    else .ok none
  | some x =>
    if x = 0 then .ok none
    else if i ≠ 0 then
      match l.getD (i - 1) none with
      | some y => if y ≥ x then .ok none else candRight l i x
      | none => candRight l i x
    else candRight l i x

/-- The candidate collection loop of local_maximums over the scanned index
range, appending (l[i], -i) pairs in increasing index order. -/
def candidates (l : List (Option ℚ)) : List ℕ → Except String (List (ℚ × ℤ))
  | [] => .ok []
  | i :: rest =>
    match candAt l i with
    | .error e => .error e
    | .ok none => candidates l rest
    | .ok (some p) =>
      match candidates l rest with
      | .error e => .error e
      | .ok hs => .ok (p :: hs)

/-- Python's ascending tuple order on the (value, -index) pairs that
highs.sort() uses. -/
def pyLe (a b : ℚ × ℤ) : Prop := a.1 < b.1 ∨ (a.1 = b.1 ∧ a.2 ≤ b.2)

instance : DecidableRel pyLe := fun a b => by
  unfold pyLe; exact inferInstance

/-- Set tag[k] = True for k in the half-open range [a, b), as the suppression
loop of local_maximums does. -/
def tagRange (tag : List Bool) (a b : ℕ) : List Bool :=
  tag.mapIdx (fun k v => if a ≤ k ∧ k < b then true else v)

/-- The greedy acceptance loop of local_maximums: walk the (value, -index)
pairs in descending order, skip tagged indices, tag the suppression radius of
each accepted index and append it to the output. -/
def greedyPick (llen dist : ℕ) : List (ℚ × ℤ) → List Bool → List ℕ → List ℕ
  | [], _tag, out => out
  | (_li, ni) :: rest, tag, out =>
    let i := (-ni).toNat
    if tag.getD i false then greedyPick llen dist rest tag out
    else greedyPick llen dist rest
      (tagRange tag (i - dist) (min llen (i + dist))) (out ++ [i])

/-- SpeedGraph.local_maximums(pad, left), with ldist = 4 and rdist = 5 inlined:
empty result for logs of at most ldist+rdist = 9 entries; otherwise scan
range(left+max(0,ldist-pad), len(l)-rdist+1) for candidates (truncated ℕ
subtraction gives max(0, 4-pad)), sort ascending, reverse, and greedily accept
with a suppression radius of dist = ldist+rdist = 9. -/
def SpeedGraph.local_maximums (g : SpeedGraph) (pad left : ℕ) :
    Except String (List ℕ) :=
  if g.log.length ≤ 9 then .ok []
  else
    match candidates g.log
        (List.range' (left + (4 - pad))
          (g.log.length - 5 + 1 - (left + (4 - pad)))) with
    | .error e => .error e
    | .ok highs =>
      .ok (greedyPick g.log.length 9 ((List.insertionSort pyLe highs).reverse)
        (List.replicate g.log.length false) [])

/-- The unit system selected by units_per_second. -/
inductive UnitsPerSecond
  | bytes
  | bits
deriving DecidableEq

/-- The predefined logarithmic label table of update_scale. -/
def predefined (u : UnitsPerSecond) : List (ℤ × String) :=
  match u with
  | .bytes =>
    [(2 ^ 10, " 1KiB\n  /s"), (2 ^ 15, "32KiB\n  /s"), (2 ^ 20, " 1MiB\n  /s"),
     (2 ^ 25, "32MiB\n  /s"), (2 ^ 30, " 1GiB\n  /s")]
  | .bits =>
    [(2 ^ 7, " 1Kib\n  /s"), (2 ^ 12, "32Kib\n  /s"), (2 ^ 17, " 1Mib\n  /s"),
     (2 ^ 22, "32Mib\n  /s"), (2 ^ 27, " 1Gib\n  /s")]

/-- The logarithmic branch of update_scale: keep the predefined entries with
chart_minimum < s < chart_maximum (strict on both sides). -/
def update_scale (chart_min chart_max : ℤ) (u : UnitsPerSecond) :
    List (ℤ × String) :=
  (predefined u).filter
    (fun p => decide (chart_min < p.1) && decide (p.1 < chart_max))

/-- Modelled from the spec for comparison: the same table filtered to the
half-open interval [chart_minimum, chart_maximum) that the specification
describes. -/
def update_scale_half_open (chart_min chart_max : ℤ) (u : UnitsPerSecond) :
    List (ℤ × String) :=
  (predefined u).filter
    (fun p => decide (chart_min ≤ p.1) && decide (p.1 < chart_max))

set_option maxRecDepth 8000

/-! Concrete program states used by witnesses and counterexamples. -/

/-- The empty Speedometer(maxlog=5) state, as produced by Speedometer(5). -/
def spEmpty5 : Speedometer := Speedometer.init 5

/-- The log [0,1,5,2,1,6,1,0] of the specification's local-maximum example. -/
def l86 : List (Option ℚ) :=
  [some 0, some 1, some 5, some 2, some 1, some 6, some 1, some 0]

/-- A SpeedGraph holding exactly the example log [0,1,5,2,1,6,1,0]. -/
def g86 : SpeedGraph := ⟨l86, []⟩

/-- A 30-entry log with a lower peak (value 5 at index 6) well before a higher
peak (value 6 at index 20). -/
def lC5 : List (Option ℚ) :=
  [some 0, some 0, some 0, some 0, some 0,
   some 1, some 5, some 0, some 0, some 0,
   some 0, some 0, some 0, some 0, some 0,
   some 0, some 0, some 0, some 0, some 1,
   some 6, some 0, some 0, some 0, some 0,
   some 0, some 0, some 0, some 0, some 0]

/-- A SpeedGraph holding the two-peak log lC5. -/
def gC5 : SpeedGraph := ⟨lC5, []⟩

/-- FileProgress(4, 1000) fed the updates 0,250,500,750,1000 at one-second
intervals (the specification's end-to-end example). -/
def fpW : FileProgress :=
  (((((FileProgress.init 4 1000).update 0 0).update 1 250).update 2
    500).update 3 750).update 4 1000

/-- FileProgress(4, 100) after a single update that already reaches the
expected size. -/
def fpC : FileProgress := (FileProgress.init 4 100).update 0 100

/-! Claim C1 -/

/-- C1, counterexample: delta_to_speed((2, 3)) evaluates to 3/2, a fractional
rate (denominator 2 ≠ 1), refuting the claim that the function always returns
an integer-truncated, whole-number bytes/second magnitude. -/
theorem claim1_counterexample :
    delta_to_speed ((2 : ℚ), (3 : ℚ)) = 3 / 2 ∧
    (delta_to_speed ((2 : ℚ), (3 : ℚ))).den ≠ 1 := by
  with_unfolding_all decide

/-- C1, amended: delta_to_speed((elapsed, byte_delta)) returns 0 if
elapsed ≤ 0 or int(elapsed*1000) == 0, and otherwise returns the exact
(true-division) quotient int(byte_delta*1000) / int(elapsed*1000), which can
be fractional. -/
theorem claim1_amended (t b : ℚ) :
    (t ≤ 0 → delta_to_speed (t, b) = 0) ∧
    (pyInt (t * 1000) = 0 → delta_to_speed (t, b) = 0) ∧
    (0 < t → pyInt (t * 1000) ≠ 0 →
      delta_to_speed (t, b) =
        (pyInt (b * 1000) : ℚ) / (pyInt (t * 1000) : ℚ)) := by
  refine ⟨fun h => by simp [delta_to_speed, h], fun h => ?_, fun h1 h2 => ?_⟩
  · by_cases h0 : t ≤ 0 <;> simp [delta_to_speed, h0, h]
  · unfold delta_to_speed
    rw [if_neg (not_le.mpr h1), if_neg h2]

/-- C1, witness: the amended theorem applied at elapsed = 2, byte_delta = 3. -/
theorem claim1_witness : delta_to_speed ((2 : ℚ), (3 : ℚ)) = 3 / 2 := by
  have h := (claim1_amended 2 3).2.2 (by norm_num) (by with_unfolding_all decide)
  rw [h]; with_unfolding_all decide

/-! Claim C6 -/

/-- C6, counterexample: on the log [0,1,5,2,1,6,1,0] with pad = 0 and left = 0,
local_maximums returns the empty list (the log length 8 fails the
len > ldist+rdist = 9 requirement), so neither index 2 nor index 5 is
selected. -/
theorem claim6_counterexample :
    g86.local_maximums 0 0 = Except.ok [] ∧
    (Except.ok ([] : List ℕ) : Except String (List ℕ)) ≠ Except.ok [2, 5] ∧
    (Except.ok ([] : List ℕ) : Except String (List ℕ)) ≠ Except.ok [5, 2] := by
  decide

/-- C6, amended: on the log [0,1,5,2,1,6,1,0] with pad = 0 and left = 0,
local_maximums returns [], since peak selection requires strictly more than
ldist+rdist = 9 log entries. -/
theorem claim6_amended : g86.local_maximums 0 0 = Except.ok [] := by decide

/-! Claim C8 -/

/-- C8, counterexample: with chart_minimum = 1024 = 2^10 and
chart_maximum = 2^32 in bytes mode, update_scale drops the 1KiB/s entry whose
raw value equals chart_minimum, so the result is not the half-open-interval
filter the claim describes. -/
theorem claim8_counterexample :
    update_scale 1024 (2 ^ 32) UnitsPerSecond.bytes ≠
      update_scale_half_open 1024 (2 ^ 32) UnitsPerSecond.bytes ∧
    ((2 ^ 10 : ℤ), " 1KiB\n  /s") ∉
      update_scale 1024 (2 ^ 32) UnitsPerSecond.bytes ∧
    ((2 ^ 10 : ℤ), " 1KiB\n  /s") ∈
      update_scale_half_open 1024 (2 ^ 32) UnitsPerSecond.bytes := by
  decide

/-- C8, amended: in logarithmic mode update_scale produces exactly the entries
of the predefined table for the unit system whose raw value lies in the OPEN
interval (chart_minimum, chart_maximum) — strict on both ends — and in table
order (the result is a sublist of the table). -/
theorem claim8_amended (cmin cmax : ℤ) (u : UnitsPerSecond) :
    (∀ p, p ∈ update_scale cmin cmax u ↔
      p ∈ predefined u ∧ cmin < p.1 ∧ p.1 < cmax) ∧
    List.Sublist (update_scale cmin cmax u) (predefined u) := by
  constructor
  · intro p
    simp [update_scale, List.mem_filter, and_assoc]
  · exact List.filter_sublist _

/-! Claim C9 -/

/-- C9, confirmed: Speedometer.delta raises AssertionError whenever
readings < 0, readings > maxlog, skip < 0, or skip > 0 with readings == 0. -/
theorem claim9_assert_raises (sp : Speedometer) (readings skip : ℤ)
    (h : readings < 0 ∨ sp.maxlog < readings ∨ skip < 0 ∨
      (0 < skip ∧ readings = 0)) :
    ∃ e, sp.delta readings skip = Except.error e := by
  unfold Speedometer.delta
  by_cases h1 : 0 ≤ readings
  · rw [if_neg (not_not_intro h1)]
    by_cases h2 : readings ≤ sp.maxlog
    · rw [if_neg (not_not_intro h2)]
      by_cases h3 : 0 ≤ skip
      · rw [if_neg (not_not_intro h3)]
        have h4 : 0 < skip ∧ ¬ 0 < readings := by
          rcases h with h | h | h | h
          · omega
          · omega
          · omega
          · exact ⟨h.1, by omega⟩
        rw [if_pos h4]
        exact ⟨_, rfl⟩
      · rw [if_pos h3]; exact ⟨_, rfl⟩
    · rw [if_pos h2]; exact ⟨_, rfl⟩
  · rw [if_pos h1]; exact ⟨_, rfl⟩

/-- C9, witness: the assertion theorem applied to Speedometer(5) with
readings = -1. -/
theorem claim9_witness :
    ∃ e, spEmpty5.delta (-1) 0 = Except.error e :=
  claim9_assert_raises spEmpty5 (-1) 0 (Or.inl (by decide))

/-! Claim C3 -/

/-- Reduction of Speedometer.delta once its four assertion preconditions
hold: only the data-availability logic remains. -/
lemma delta_reduce (sp : Speedometer) (readings skip : ℤ)
    (h1 : 0 ≤ readings) (h2 : readings ≤ sp.maxlog) (h3 : 0 ≤ skip)
    (h4 : 0 < skip → 0 < readings) :
    sp.delta readings skip =
      if (sp.log.length : ℤ) - 1 < skip then Except.ok none
      else
        match sp.targetReading readings skip with
        | none => Except.ok none
        | some target =>
          if target = sp.currentReading skip then Except.ok none
          else Except.ok (some ((sp.currentReading skip).1 - target.1,
            (sp.currentReading skip).2 - target.2)) := by
  unfold Speedometer.delta
  rw [if_neg (not_not_intro h1), if_neg (not_not_intro h2),
    if_neg (not_not_intro h3),
    if_neg (by rintro ⟨hs, hr⟩; exact hr (h4 hs))]

/-- C3, counterexample: Speedometer(5) with an empty log (fewer than
skip+1 = 1 entries) and readings = 6 raises AssertionError instead of
returning none, refuting the claim for arbitrary readings arguments. -/
theorem claim3_counterexample :
    spEmpty5.delta 6 0 =
      Except.error "AssertionError: Log is not long enough to satisfy request" ∧
    spEmpty5.log.length = 0 := by decide

/-- C3, amended: provided the asserted preconditions hold (0 ≤ readings ≤
maxlog, 0 ≤ skip, and readings > 0 whenever skip > 0), delta never raises,
returns none whenever fewer than skip+1 entries exist, returns none when the
target reading does not resolve, and returns none when target and current
resolve to the same reading. -/
theorem claim3_amended (sp : Speedometer) (readings skip : ℤ)
    (h1 : 0 ≤ readings) (h2 : readings ≤ sp.maxlog) (h3 : 0 ≤ skip)
    (h4 : 0 < skip → 0 < readings) :
    (∃ v, sp.delta readings skip = Except.ok v) ∧
    ((sp.log.length : ℤ) < skip + 1 →
      sp.delta readings skip = Except.ok none) ∧
    (sp.targetReading readings skip = none →
      sp.delta readings skip = Except.ok none) ∧
    (∀ tgt, sp.targetReading readings skip = some tgt →
      tgt = sp.currentReading skip →
      sp.delta readings skip = Except.ok none) := by
  rw [delta_reduce sp readings skip h1 h2 h3 h4]
  refine ⟨?_, ?_, ?_, ?_⟩
  · by_cases h5 : (sp.log.length : ℤ) - 1 < skip
    · exact ⟨none, if_pos h5⟩
    · rw [if_neg h5]
      rcases htr : sp.targetReading readings skip with _ | tgt
      · exact ⟨none, by simp only [htr]⟩
      · by_cases heq : tgt = sp.currentReading skip
        · exact ⟨none, by simp only [htr]; rw [if_pos heq]⟩
        · exact ⟨_, by simp only [htr]; rw [if_neg heq]⟩
  · intro hlen
    rw [if_pos (by omega)]
  · intro htr
    by_cases h5 : (sp.log.length : ℤ) - 1 < skip
    · rw [if_pos h5]
    · rw [if_neg h5]; simp only [htr]
  · intro tgt htr heq
    by_cases h5 : (sp.log.length : ℤ) - 1 < skip
    · rw [if_pos h5]
    · rw [if_neg h5]; simp only [htr]; rw [if_pos heq]

/-- C3, witness: the amended theorem applied to the empty Speedometer(5) with
readings = 1, skip = 0. -/
theorem claim3_witness : spEmpty5.delta 1 0 = Except.ok none :=
  (claim3_amended spEmpty5 1 0 (by decide) (by decide) (by decide)
    (fun h => absurd h (by decide))).2.1 (by decide)

/-! Claim C10 -/

/-- C10, counterexample: a Speedometer constructed with maxlog = 0 and an
empty log makes curve() raise AssertionError (via delta(1, 0)) rather than
return 0. -/
theorem claim10_counterexample :
    curve (Speedometer.init 0) =
      Except.error "AssertionError: Log is not long enough to satisfy request" ∧
    (Speedometer.init 0).log.length < 2 := by decide

/-- C10, amended: for every Speedometer with maxlog ≥ 1 (as all Speedometers
constructed by the program are) holding fewer than two readings, curve()
returns the value 0 rather than none or an exception. -/
theorem claim10_amended (sp : Speedometer) (h1 : 1 ≤ sp.maxlog)
    (h2 : sp.log.length < 2) : curve sp = Except.ok 0 := by
  have hd : sp.delta 1 0 = Except.ok none := by
    rw [delta_reduce sp 1 0 (by norm_num) h1 (le_refl 0)
      (fun _ => by norm_num)]
    by_cases h5 : (sp.log.length : ℤ) - 1 < 0
    · rw [if_pos h5]
    · rw [if_neg h5]
      have hlen : sp.log.length = 1 := by omega
      have htr : sp.targetReading 1 0 = none := by
        unfold Speedometer.targetReading
        rw [if_neg (by norm_num), if_neg (by rw [hlen]; norm_num)]
      simp only [htr]
  unfold curve curveAux
  simp only [hd]
  norm_num [delta_to_speed]

/-- C10, witness: the amended theorem applied to the empty Speedometer(6)
used by the graph displays. -/
theorem claim10_witness : curve (Speedometer.init 6) = Except.ok 0 :=
  claim10_amended (Speedometer.init 6) (by decide) (by decide)

/-! Claim C2 -/

/-- C2, counterexample: a FileProgress(4, 100) whose single update already
reaches the expected size has current_size ≥ expected_size, yet
completion_estimate() returns none (no 4-interval delta yet), not 0 — the
claimed equivalence fails. -/
theorem claim2_counterexample :
    fpC.current_size = some 100 ∧ fpC.expected_size ≤ 100 ∧
    fpC.completion_estimate = Except.ok none ∧
    (Except.ok (none : Option ℚ) : Except String (Option ℚ)) ≠
      Except.ok (some 0) := by
  with_unfolding_all decide

/-- C2, amended: after at least one update, the none cases take precedence:
completion_estimate() returns none when the 4-reading delta is unavailable or
its byte delta is ≤ 0 (even if current_size ≥ expected_size); otherwise it
returns 0 exactly when current_size ≥ expected_size, and
remaining*elapsed/byte_delta with remaining = expected_size - current_size
otherwise. -/
theorem claim2_amended (fp : FileProgress) (c : ℤ)
    (hc : fp.current_size = some c) :
    (fp.speedometer.delta 4 0 = Except.ok none →
      fp.completion_estimate = Except.ok none) ∧
    (∀ sec : ℚ, ∀ byt : ℤ,
      fp.speedometer.delta 4 0 = Except.ok (some (sec, byt)) →
      (byt ≤ 0 → fp.completion_estimate = Except.ok none) ∧
      (0 < byt → fp.expected_size ≤ c →
        fp.completion_estimate = Except.ok (some 0)) ∧
      (0 < byt → c < fp.expected_size →
        fp.completion_estimate = Except.ok
          (some (((fp.expected_size - c : ℤ) : ℚ) * sec / (byt : ℚ))))) := by
  constructor
  · intro h
    unfold FileProgress.completion_estimate
    simp only [h]
  · intro sec byt h
    refine ⟨fun hb => ?_, fun hb hr => ?_, fun hb hr => ?_⟩
    · unfold FileProgress.completion_estimate
      simp only [h]
      rw [if_pos hb]
    · unfold FileProgress.completion_estimate
      simp only [h, hc]
      rw [if_neg (not_le.mpr hb),
        if_pos (by omega : fp.expected_size - c ≤ 0)]
    · unfold FileProgress.completion_estimate
      simp only [h, hc]
      rw [if_neg (not_le.mpr hb),
        if_neg (by omega : ¬ fp.expected_size - c ≤ 0)]

/-- C2, witness: the amended theorem applied to the FileProgress(4, 1000) fed
0,250,500,750,1000 at one-second intervals; the estimate is 0 at the final
update. -/
theorem claim2_witness : fpW.completion_estimate = Except.ok (some 0) :=
  ((claim2_amended fpW 1000 (by with_unfolding_all decide)).2 4 1000
    (by with_unfolding_all decide)).2.1 (by decide) (by with_unfolding_all decide)

/-! Claim C7 -/

/-- Length of the raw-rate history after one append_log call. -/
lemma append_log_length (scale : Option ℚ → ℚ) (g : SpeedGraph)
    (s : Option ℚ) :
    (g.append_log scale s).log.length = min (g.log.length + 1) 301 := by
  simp only [SpeedGraph.append_log, pyTail, List.length_append,
    List.length_drop, List.length_singleton]
  omega

/-- Length of the raw-rate history after folding append_log over n inputs. -/
lemma append_log_foldl_length (scale : Option ℚ → ℚ) :
    ∀ (n : ℕ) (g : SpeedGraph), g.log.length ≤ 301 →
      ((List.replicate n (none : Option ℚ)).foldl
        (SpeedGraph.append_log scale) g).log.length =
        min (g.log.length + n) 301
  | 0, g, hg => by
    simp only [List.replicate, List.foldl_nil]
    omega
  | n + 1, g, hg => by
    rw [List.replicate_succ, List.foldl_cons,
      append_log_foldl_length scale n (g.append_log scale none)
        (by rw [append_log_length]; omega),
      append_log_length]
    omega

/-- The constant-zero stand-in for speed_scale used by the counterexample. -/
def scale0 : Option ℚ → ℚ := fun _ => 0

/-- C7, counterexample: starting from an empty SpeedGraph, 301 append_log
calls leave 301 entries in the raw-rate history — more than the claimed
bound of 300 (the code trims to the last 300 and then appends). -/
theorem claim7_counterexample :
    ((List.replicate 301 (none : Option ℚ)).foldl
      (SpeedGraph.append_log scale0) ⟨[], []⟩).log.length = 301 ∧
    ¬ (301 ≤ 300) := by
  refine ⟨?_, by omega⟩
  rw [append_log_foldl_length scale0 301 ⟨[], []⟩ (by simp)]
  simp

/-- C7, amended: after each append_log call both histories contain at most the
301 most recent entries: each is bounded by 301 and is a suffix of the
previous history extended by the new entry. -/
theorem claim7_amended (scale : Option ℚ → ℚ) (g : SpeedGraph)
    (s : Option ℚ) :
    ((g.append_log scale s).log.length ≤ 301 ∧
      (g.append_log scale s).bar.length ≤ 301) ∧
    ((g.append_log scale s).log.IsSuffix (g.log ++ [s]) ∧
      (g.append_log scale s).bar.IsSuffix (g.bar ++ [[scale s]])) := by
  refine ⟨⟨?_, ?_⟩, ?_, ?_⟩
  · rw [append_log_length]; omega
  · simp only [SpeedGraph.append_log, pyTail, List.length_append,
      List.length_drop, List.length_singleton]
    omega
  · obtain ⟨u, hu⟩ := List.drop_suffix (g.log.length - 300) g.log
    refine ⟨u, ?_⟩
    show u ++ (List.drop (g.log.length - 300) g.log ++ [s]) = g.log ++ [s]
    rw [← List.append_assoc, hu]
  · obtain ⟨u, hu⟩ := List.drop_suffix (g.bar.length - 300) g.bar
    refine ⟨u, ?_⟩
    show u ++ (List.drop (g.bar.length - 300) g.bar ++ [[scale s]]) =
      g.bar ++ [[scale s]]
    rw [← List.append_assoc, hu]


/-! Claim C4 -/

/-- A log of seven readings at a sustained constant rate: consecutive readings
separated by elapsed time t with byte increase b. -/
def constLog (t0 : ℚ) (s0 : ℤ) (t : ℚ) (b : ℤ) : List Reading :=
  [(t0, s0), (t0 + t, s0 + b), (t0 + 2 * t, s0 + 2 * b),
   (t0 + 3 * t, s0 + 3 * b), (t0 + 4 * t, s0 + 4 * b),
   (t0 + 5 * t, s0 + 5 * b), (t0 + 6 * t, s0 + 6 * b)]

/-- A Speedometer holding such a constant-rate log, its start being the first
reading. -/
def constSpd (t0 : ℚ) (s0 : ℤ) (t : ℚ) (b : ℤ) (maxlog : ℤ) : Speedometer :=
  ⟨constLog t0 s0 t b, some (t0, s0), maxlog⟩

/-- pyInt is the identity on integer-valued rationals. -/
lemma pyInt_of_den_one (q : ℚ) (h : q.den = 1) : (pyInt q : ℚ) = q := by
  unfold pyInt
  rw [h, Nat.cast_one, Int.tdiv_one]
  have h2 := Rat.num_div_den q
  rw [h, Nat.cast_one, div_one] at h2
  exact h2

/-- delta_to_speed on a positive, not-sub-millisecond elapsed time is the true
quotient of the millisecond-truncated operands. -/
lemma delta_to_speed_of_pos (x y : ℚ) (h1 : 0 < x) (h2 : pyInt (x * 1000) ≠ 0) :
    delta_to_speed (x, y) = (pyInt (y * 1000) : ℚ) / (pyInt (x * 1000) : ℚ) := by
  unfold delta_to_speed
  rw [if_neg (not_le.mpr h1), if_neg h2]

/-- delta(1, i) on the constant-rate Speedometer, expressed through the
resolved target and current readings. -/
lemma constSpd_delta_aux (t0 : ℚ) (s0 : ℤ) (t : ℚ) (b : ℤ) (maxlog : ℤ)
    (hm : 1 ≤ maxlog) (i : ℤ) (hi : 0 ≤ i) (h5 : i ≤ 5)
    (tq cq : ℚ) (tz cz : ℤ)
    (htgt : (constSpd t0 s0 t b maxlog).targetReading 1 i = some (tq, tz))
    (hcur : (constSpd t0 s0 t b maxlog).currentReading i = (cq, cz))
    (hne : tq ≠ cq) :
    (constSpd t0 s0 t b maxlog).delta 1 i =
      Except.ok (some (cq - tq, cz - tz)) := by
  rw [delta_reduce _ 1 i (by norm_num) hm hi (fun _ => by norm_num)]
  have hlen : (constSpd t0 s0 t b maxlog).log.length = 7 := rfl
  rw [hlen, if_neg (by omega : ¬ ((7 : ℕ) : ℤ) - 1 < i)]
  simp only [htgt, hcur]
  rw [if_neg (fun h => hne (congrArg Prod.fst h))]

/-- curve() on the constant-rate Speedometer evaluates to
int(21000·(b/t)) / 21000. -/
lemma curve_constSpd (t0 : ℚ) (s0 : ℤ) (t : ℚ) (b : ℤ) (maxlog : ℤ)
    (ht : 0 < t) (hm : 6 ≤ maxlog) :
    curve (constSpd t0 s0 t b maxlog) =
      Except.ok ((pyInt (21000 * ((b : ℚ) / t)) : ℚ) / 21000) := by
  have hm1 : (1 : ℤ) ≤ maxlog := by omega
  have h0 : (constSpd t0 s0 t b maxlog).delta 1 0 = Except.ok (some (t, b)) := by
    have h := constSpd_delta_aux t0 s0 t b maxlog hm1 0 (by norm_num) (by norm_num)
      (t0 + 5 * t) (t0 + 6 * t) (s0 + 5 * b) (s0 + 6 * b) rfl rfl
      (fun h => ht.ne' (by linarith))
    rw [h]
    simp only [show (t0 + 6 * t) - (t0 + 5 * t) = t from by ring,
      show (s0 + 6 * b) - (s0 + 5 * b) = b from by ring]
  have h1 : (constSpd t0 s0 t b maxlog).delta 1 1 = Except.ok (some (t, b)) := by
    have h := constSpd_delta_aux t0 s0 t b maxlog hm1 1 (by norm_num) (by norm_num)
      (t0 + 4 * t) (t0 + 5 * t) (s0 + 4 * b) (s0 + 5 * b) rfl rfl
      (fun h => ht.ne' (by linarith))
    rw [h]
    simp only [show (t0 + 5 * t) - (t0 + 4 * t) = t from by ring,
      show (s0 + 5 * b) - (s0 + 4 * b) = b from by ring]
  have h2 : (constSpd t0 s0 t b maxlog).delta 1 2 = Except.ok (some (t, b)) := by
    have h := constSpd_delta_aux t0 s0 t b maxlog hm1 2 (by norm_num) (by norm_num)
      (t0 + 3 * t) (t0 + 4 * t) (s0 + 3 * b) (s0 + 4 * b) rfl rfl
      (fun h => ht.ne' (by linarith))
    rw [h]
    simp only [show (t0 + 4 * t) - (t0 + 3 * t) = t from by ring,
      show (s0 + 4 * b) - (s0 + 3 * b) = b from by ring]
  have h3 : (constSpd t0 s0 t b maxlog).delta 1 3 = Except.ok (some (t, b)) := by
    have h := constSpd_delta_aux t0 s0 t b maxlog hm1 3 (by norm_num) (by norm_num)
      (t0 + 2 * t) (t0 + 3 * t) (s0 + 2 * b) (s0 + 3 * b) rfl rfl
      (fun h => ht.ne' (by linarith))
    rw [h]
    simp only [show (t0 + 3 * t) - (t0 + 2 * t) = t from by ring,
      show (s0 + 3 * b) - (s0 + 2 * b) = b from by ring]
  have h4 : (constSpd t0 s0 t b maxlog).delta 1 4 = Except.ok (some (t, b)) := by
    have h := constSpd_delta_aux t0 s0 t b maxlog hm1 4 (by norm_num) (by norm_num)
      (t0 + t) (t0 + 2 * t) (s0 + b) (s0 + 2 * b) rfl rfl
      (fun h => ht.ne' (by linarith))
    rw [h]
    simp only [show (t0 + 2 * t) - (t0 + t) = t from by ring,
      show (s0 + 2 * b) - (s0 + b) = b from by ring]
  have h5 : (constSpd t0 s0 t b maxlog).delta 1 5 = Except.ok (some (t, b)) := by
    have h := constSpd_delta_aux t0 s0 t b maxlog hm1 5 (by norm_num) (by norm_num)
      t0 (t0 + t) s0 (s0 + b) rfl rfl
      (fun h => ht.ne' (by linarith))
    rw [h]
    simp only [show (t0 + t) - t0 = t from by ring,
      show (s0 + b) - s0 = b from by ring]
  unfold curve
  simp only [curveAux, h0, h1, h2, h3, h4, h5, ht.ne', if_false, ite_false]
  have hx : pyInt ((((0 + 6 + 5 + 4 + 3 + 2 + 1 : ℤ) : ℚ)) * 1000) = 21000 := by
    with_unfolding_all decide
  have hy : ((0 : ℚ) + (b : ℚ) * ((6 : ℤ) : ℚ) / t + (b : ℚ) * ((5 : ℤ) : ℚ) / t +
      (b : ℚ) * ((4 : ℤ) : ℚ) / t + (b : ℚ) * ((3 : ℤ) : ℚ) / t +
      (b : ℚ) * ((2 : ℤ) : ℚ) / t + (b : ℚ) * ((1 : ℤ) : ℚ) / t) * 1000 =
      21000 * ((b : ℚ) / t) := by push_cast; ring
  rw [delta_to_speed_of_pos _ _ (by norm_num) (by rw [hx]; norm_num), hy, hx]
  norm_num

/-- C4, amended: on a log of 7 readings at sustained constant rate R = b/t
(elapsed t > 0 per interval, maxlog ≥ 6), curve() returns int(21000·R)/21000 —
which equals exactly R precisely when 21000·R is an integer, in particular for
every whole-number rate; the weights [6,5,4,3,2,1] sum to 21 without bias. -/
theorem claim4_amended (t0 : ℚ) (s0 : ℤ) (t : ℚ) (b : ℤ) (maxlog : ℤ)
    (ht : 0 < t) (hm : 6 ≤ maxlog) :
    curve (constSpd t0 s0 t b maxlog) =
      Except.ok ((pyInt (21000 * ((b : ℚ) / t)) : ℚ) / 21000) ∧
    ((21000 * ((b : ℚ) / t) : ℚ).den = 1 →
      curve (constSpd t0 s0 t b maxlog) = Except.ok ((b : ℚ) / t)) := by
  refine ⟨curve_constSpd t0 s0 t b maxlog ht hm, fun hden => ?_⟩
  rw [curve_constSpd t0 s0 t b maxlog ht hm, pyInt_of_den_one _ hden,
    mul_div_cancel_left₀ _ (by norm_num : (21000 : ℚ) ≠ 0)]

/-- C4, counterexample: seven readings spaced t = 11 seconds apart with a byte
increase of 1 per interval (rate R = 1/11, maxlog = 6) make curve() return
1909/21000, not exactly R — the truncation int(21000·R) loses precision
whenever 21000·R is not an integer. -/
theorem claim4_counterexample :
    curve (constSpd 0 0 11 1 6) = Except.ok (1909 / 21000) ∧
    (1909 / 21000 : ℚ) ≠ (1 : ℚ) / 11 := by
  refine ⟨?_, by norm_num⟩
  rw [curve_constSpd 0 0 11 1 6 (by norm_num) (by norm_num),
    show pyInt (21000 * (((1 : ℤ) : ℚ) / 11)) = 1909 from by
      with_unfolding_all decide]
  norm_num

/-- C4, witness: the amended theorem at the whole-number rate R = 5 (t = 1,
b = 5, maxlog = 6): curve returns exactly 5. -/
theorem claim4_witness :
    curve (constSpd 0 0 1 5 6) = Except.ok (((5 : ℤ) : ℚ) / 1) :=
  (claim4_amended 0 0 1 5 6 (by norm_num) (by norm_num)).2
    (by with_unfolding_all decide)

/-! Claim C5 -/

/-- A successful candRight step produces the pair (x, -i). -/
lemma candRight_spec (l : List (Option ℚ)) (i : ℕ) (x : ℚ) (p : ℚ × ℤ)
    (h : candRight l i x = Except.ok (some p)) : p = (x, -(i : ℤ)) := by
  unfold candRight at h
  rcases hz : l.getD (i + 1) none with _ | z <;> simp only [hz] at h
  · exact Except.noConfusion h
  by_cases hzx : z > x
  · rw [if_pos hzx] at h; simp at h
  · rw [if_neg hzx] at h
    simp only [Except.ok.injEq, Option.some.injEq] at h
    exact h.symm

/-- Every candidate produced at index i records the log value at its own
index: a candidate (li, -i) satisfies l[i] = li. -/
lemma candAt_spec (l : List (Option ℚ)) (i : ℕ) (p : ℚ × ℤ)
    (h : candAt l i = Except.ok (some p)) :
    l.getD ((-p.2).toNat) none = some p.1 := by
  unfold candAt at h
  rcases hli : l.getD i none with _ | x <;> simp only [hli] at h
  · by_cases hi : i ≠ 0
    · rw [if_pos hi] at h
      rcases hlm : l.getD (i - 1) none with _ | y <;> simp only [hlm] at h
      · exact Option.noConfusion (Except.ok.inj h)
      · exact Except.noConfusion h
    · rw [if_neg hi] at h
      exact Option.noConfusion (Except.ok.inj h)
  · by_cases hx : x = 0
    · rw [if_pos hx] at h; simp at h
    · rw [if_neg hx] at h
      have hp : p = (x, -(i : ℤ)) := by
        by_cases hi : i ≠ 0
        · rw [if_pos hi] at h
          rcases hlm : l.getD (i - 1) none with _ | y <;> simp only [hlm] at h
          · exact candRight_spec l i x p h
          · by_cases hyx : y ≥ x
            · rw [if_pos hyx] at h; simp at h
            · rw [if_neg hyx] at h; exact candRight_spec l i x p h
        · rw [if_neg hi] at h; exact candRight_spec l i x p h
      rw [hp]
      simpa using hli

/-- Every pair collected by the candidate loop records the log value at its
own index. -/
lemma candidates_mem (l : List (Option ℚ)) :
    ∀ (idxs : List ℕ) (hs : List (ℚ × ℤ)),
      candidates l idxs = Except.ok hs →
      ∀ p ∈ hs, l.getD ((-p.2).toNat) none = some p.1
  | [], hs, h => by
    simp only [candidates, Except.ok.injEq] at h
    subst h
    intro p hp
    cases hp
  | i :: rest, hs, h => by
    unfold candidates at h
    rcases hca : candAt l i with e | (_ | p') <;> simp only [hca] at h
    · exact Except.noConfusion h
    · exact candidates_mem l rest hs h
    · rcases hcr : candidates l rest with e2 | hs2 <;> simp only [hcr] at h
      · exact Except.noConfusion h
      simp only [Except.ok.injEq] at h
      subst h
      intro p hp
      rcases List.mem_cons.mp hp with hp1 | hp2
      · subst hp1; exact candAt_spec l i p hca
      · exact candidates_mem l rest hs2 hcr p hp2

instance : IsTrans (ℚ × ℤ) pyLe where
  trans a b c hab hbc := by
    rcases hab with h1 | ⟨e1, h1⟩ <;> rcases hbc with h2 | ⟨e2, h2⟩
    · exact Or.inl (h1.trans h2)
    · exact Or.inl (e2 ▸ h1)
    · exact Or.inl (e1 ▸ h2)
    · exact Or.inr ⟨e1.trans e2, h1.trans h2⟩

instance : IsTotal (ℚ × ℤ) pyLe where
  total a b := by
    rcases lt_trichotomy a.1 b.1 with h | h | h
    · exact Or.inl (Or.inl h)
    · rcases le_total a.2 b.2 with h2 | h2
      · exact Or.inl (Or.inr ⟨h, h2⟩)
      · exact Or.inr (Or.inr ⟨h.symm, h2⟩)
    · exact Or.inr (Or.inl h)

/-- The greedy acceptance loop emits the indices of some sublist of its input
list of (value, -index) pairs, in input order, after the accumulator. -/
lemma greedyPick_sublist (llen dist : ℕ) (hs : List (ℚ × ℤ)) :
    ∀ (tag : List Bool) (out : List ℕ),
      ∃ hs' : List (ℚ × ℤ), hs'.Sublist hs ∧
        greedyPick llen dist hs tag out =
          out ++ hs'.map (fun p => (-p.2).toNat) := by
  induction hs with
  | nil =>
    intro tag out
    exact ⟨[], List.Sublist.refl [], by simp [greedyPick]⟩
  | cons p rest ih =>
    intro tag out
    obtain ⟨li, ni⟩ := p
    rw [greedyPick]
    by_cases htag : tag.getD ((-ni).toNat) false = true
    · rw [if_pos htag]
      obtain ⟨hs', hsub, heq⟩ := ih tag out
      exact ⟨hs', hsub.cons _, heq⟩
    · rw [if_neg htag]
      obtain ⟨hs', hsub, heq⟩ := ih
        (tagRange tag ((-ni).toNat - dist) (min llen ((-ni).toNat + dist)))
        (out ++ [(-ni).toNat])
      refine ⟨(li, ni) :: hs', hsub.cons₂ _, ?_⟩
      rw [heq]
      simp

/-- The order in which local_maximums actually emits peak indices: the log
value at the earlier-emitted index is at least the value at the later one
(greedy acceptance runs in descending value order). -/
def peakOrder (l : List (Option ℚ)) (a b : ℕ) : Prop :=
  ∃ x y, l.getD a none = some x ∧ l.getD b none = some y ∧ y ≤ x

/-- C5, counterexample: on the 30-entry log lC5 (peak 5 at index 6, peak 6 at
index 20, out of mutual suppression range) local_maximums returns [20, 6] —
the higher-valued later peak first — which is not in ascending index order. -/
theorem claim5_counterexample :
    gC5.local_maximums 0 0 = Except.ok [20, 6] ∧
    ¬ List.Pairwise (fun a b => a ≤ b) ([20, 6] : List ℕ) := by
  constructor
  · decide
  · decide

/-- C5, amended: for every log, pad and left input, the peak indices returned
by local_maximums are ordered by non-increasing peak value (the greedy
acceptance order), not by ascending index. -/
theorem claim5_amended (g : SpeedGraph) (pad left : ℕ) (out : List ℕ)
    (hok : g.local_maximums pad left = Except.ok out) :
    out.Pairwise (peakOrder g.log) := by
  unfold SpeedGraph.local_maximums at hok
  by_cases hshort : g.log.length ≤ 9
  · rw [if_pos hshort] at hok
    simp only [Except.ok.injEq] at hok
    subst hok
    exact List.Pairwise.nil
  · rw [if_neg hshort] at hok
    rcases hcand : candidates g.log (List.range' (left + (4 - pad))
        (g.log.length - 5 + 1 - (left + (4 - pad)))) with e | highs <;>
      simp only [hcand] at hok
    · exact Except.noConfusion hok
    obtain ⟨hs', hsub, heq⟩ := greedyPick_sublist g.log.length 9
      ((List.insertionSort pyLe highs).reverse)
      (List.replicate g.log.length false) []
    rw [heq, List.nil_append] at hok
    simp only [Except.ok.injEq] at hok
    subst hok
    have hsorted : List.Pairwise (fun a b => pyLe b a)
        ((List.insertionSort pyLe highs).reverse) := by
      rw [List.pairwise_reverse]
      exact List.sorted_insertionSort pyLe highs
    have hps : List.Pairwise (fun a b => pyLe b a) hs' := hsorted.sublist hsub
    have hmem : ∀ p ∈ hs', g.log.getD ((-p.2).toNat) none = some p.1 := by
      intro p hp
      have hp2 : p ∈ (List.insertionSort pyLe highs).reverse := hsub.subset hp
      rw [List.mem_reverse] at hp2
      have hp3 : p ∈ highs := (List.perm_insertionSort pyLe highs).subset hp2
      exact candidates_mem g.log _ highs hcand p hp3
    rw [List.pairwise_map]
    refine hps.imp_of_mem ?_
    intro a b ha hb hr
    refine ⟨a.1, b.1, hmem a ha, hmem b hb, ?_⟩
    rcases hr with h | ⟨h, _⟩
    · exact h.le
    · exact h.le

/-- C5, witness: the amended theorem applied to the two-peak log lC5, whose
output [20, 6] is ordered by non-increasing peak value. -/
theorem claim5_witness :
    ([20, 6] : List ℕ).Pairwise (peakOrder gC5.log) :=
  claim5_amended gC5 0 0 [20, 6] (by decide)
